import Mathlib

/-!
Verification development for the hydromt raster-reading subsystem described in
`spec.md`: the Single-File Reader / Multi-File Stacker (`open_mfraster`) and the
tile-index Mosaic Engine (`open_raster_from_tindex`).  The repository snapshot
contains only a notebook exercising these functions, not their implementation,
so every operational definition below is modelled from the specification text
(each such definition's doc comment says which part of the spec it follows).
-/

set_option maxHeartbeats 1000000

namespace HydroMT

/-- CRS identifier (spec data model: `crs: CRS identifier`). -/
abbrev CRS := Nat

/-- Modelled from the spec: the 6-parameter affine map from pixel (row, col)
to world (x, y) coordinates (`transform: affine map`). -/
structure Affine where
  a : Int
  b : Int
  c : Int
  d : Int
  e : Int
  f : Int
deriving DecidableEq, Repr

/-- Modelled from the spec: axis-aligned rectangle used both for tile
footprints and for the area of interest (`Area of Interest (bbox)`). -/
structure BBox where
  xmin : Int
  ymin : Int
  xmax : Int
  ymax : Int
deriving DecidableEq, Repr

/-- Rectangle intersection test used when selecting tiles. -/
def BBox.intersects (p q : BBox) : Bool :=
  decide (p.xmin < q.xmax) && decide (q.xmin < p.xmax) &&
    decide (p.ymin < q.ymax) && decide (q.ymin < p.ymax)

/-- Modelled from the spec: the Grid Descriptor attached to any array result
(`{ crs; transform; x_dim, y_dim; width, height; nodata }`). -/
structure GridDescriptor where
  crs : CRS
  transform : Affine
  x_dim : String
  y_dim : String
  width : Nat
  height : Nat
  nodata : Option Int
deriving DecidableEq, Repr

/-- Modelled from the spec: Tile Record
(`{ geometry; crs; location }`, read-only). -/
structure TileRecord where
  geometry : BBox
  crs : CRS
  location : String
deriving DecidableEq, Repr

/-- Backing of a labeled result: fully materialized in memory, or deferred
per a chunk specification (spec §4.1/§4.2 lazy loading, design note on
two-phase lazy contract). -/
inductive Backing where
  | materialized : Backing
  | deferred : List (String × Nat) → Backing
deriving DecidableEq, Repr

/-- A named variable of a Labeled Dataset: one or more co-registered 2-D
layers, stored row-major. -/
structure Variable where
  name : String
  layers : List (List Int)
deriving DecidableEq, Repr

/-- Modelled from the spec: Labeled Dataset — a named collection of
co-indexed arrays carrying one Grid Descriptor. -/
structure LabeledDataset where
  gd : GridDescriptor
  vars : List Variable
  backing : Backing
deriving DecidableEq, Repr

/-! ### Multi-File Stacker (`open_mfraster`, spec §4.2) -/

/-- A source raster file as seen by the stacker: a file name, the Grid
Descriptor parsed from its georeferencing metadata, and its (single-layer)
cell data. -/
structure RasterFile where
  name : String
  gd : GridDescriptor
  data : List Int
deriving DecidableEq, Repr

/-- The part of a Grid Descriptor that must agree across a uniform stack:
spec §4.2 precondition `same transform, same x/y extents`. -/
def gridKey (f : RasterFile) : Affine × Nat × Nat :=
  (f.gd.transform, f.gd.width, f.gd.height)

/-- Errors of the Multi-File Stacker (spec §7 taxonomy). -/
inductive StackError where
  | gridMismatch : String → StackError
  | emptyInput : StackError
deriving DecidableEq, Repr

/-- Modelled from the spec: variable names are `derived from the file name`;
we strip a trailing `.tif` extension. -/
def stripTif (s : String) : String :=
  if s.toList.reverse.take 4 = ['f', 'i', 't', '.'] then
    String.mk (s.toList.take (s.toList.length - 4))
  else s

/-- Modelled from the spec (§4.2): the dataset built from a validated uniform
stack — one variable per file (name derived from the file name, input order),
or, when `concat` is set, a single variable concatenated along a new
dimension sized to the source count; lazily backed per `chunkSpec`. -/
def stackData (f0 : RasterFile) (rest : List RasterFile) (concat : Bool)
    (chunkSpec : Option (List (String × Nat))) : LabeledDataset :=
  let backing : Backing :=
    match chunkSpec with
    | some c => .deferred c
    | none => .materialized
  if concat then
    { gd := f0.gd
      vars :=
        [{ name := stripTif f0.name, layers := (f0 :: rest).map (fun f => f.data) }]
      backing := backing }
  else
    { gd := f0.gd
      vars :=
        (f0 :: rest).map (fun f => { name := stripTif f.name, layers := [f.data] })
      backing := backing }

/-- Modelled from the spec: `open_mfraster(sources, concat, chunk_spec)`
(§4.2).  Validates that every source shares the reference grid (failing with
a GridMismatchError naming the first offending file), then stacks the sources
per `stackData`. -/
def open_mfraster (files : List RasterFile) (concat : Bool)
    (chunkSpec : Option (List (String × Nat))) :
    Except StackError LabeledDataset :=
  match files with
  | [] => .error .emptyInput
  | f0 :: rest =>
    match (f0 :: rest).find? (fun f => decide (gridKey f ≠ gridKey f0)) with
    | some f => .error (.gridMismatch f.name)
    | none => .ok (stackData f0 rest concat chunkSpec)

/-- Modelled from the spec (design note §9): glob-pattern resolution is a pure
function from a pattern to a sorted sequence of paths; here the directory
listing and the pattern predicate are explicit, and matches are sorted by
file name. -/
def insertByName (f : RasterFile) : List RasterFile → List RasterFile
  | [] => [f]
  | g :: gs =>
    if (compare f.name g.name).isLT then f :: g :: gs else g :: insertByName f gs

/-- Insertion sort of raster files by name; used for glob-match ordering. -/
def sortByName : List RasterFile → List RasterFile
  | [] => []
  | f :: fs => insertByName f (sortByName fs)

/-- Modelled from the spec: `open_mfraster` called with a glob-style pattern
reads the sorted list of matching files (§4.2 input contract). -/
def open_mfraster_glob (dir : List RasterFile) (pat : String → Bool)
    (concat : Bool) (chunkSpec : Option (List (String × Nat))) :
    Except StackError LabeledDataset :=
  open_mfraster (sortByName (dir.filter (fun f => pat f.name))) concat chunkSpec

/-- Modelled from the spec (§6 output interface): the reverse export contract
writes a Labeled Dataset back out as one raster file per variable, each file
named after the variable and carrying the dataset's Grid Descriptor. -/
def to_mapstack (d : LabeledDataset) : List RasterFile :=
  d.vars.map (fun v =>
    { name := v.name ++ ".tif", gd := d.gd, data := v.layers.headD [] })

/-! ### Mosaic Engine (`open_raster_from_tindex`, spec §4.4) -/

/-- A tile after read and reprojection onto the destination grid clipped to
the bbox: `values i j = none` marks nodata (either the tile's own nodata or a
cell outside the tile's footprint); `nodata` is the tile's declared nodata
value, used to resolve the output nodata. -/
structure ReadTile where
  values : Nat → Nat → Option Int
  nodata : Option Int

/-- The external collaborators the Mosaic Engine consumes as black boxes:
reprojection of a bbox between CRSs (spec §4.4 step 1) and the combined
read-and-reproject of one tile onto the destination grid (steps 4), which may
fail (`none`) for an unreadable or unreprojectable tile. -/
structure World where
  warpBBox : BBox → CRS → CRS → BBox
  readReproject : TileRecord → CRS → BBox → Nat → Option ReadTile

/-- Errors of the Mosaic Engine: spec §7 — EmptyResultError covers both `no
tiles intersect an area of interest` and `all intersecting tiles failed to
read`. -/
inductive MosaicError where
  | emptyResult : String → MosaicError
deriving DecidableEq, Repr

/-- The mosaic result: a Labeled array with its Grid Descriptor, cell values
as a total function on the output grid, the backing mode, the recorded
warnings for skipped tiles, and whether the mixed-CRS fallback warning was
raised (spec §4.4 step 3, §6 warning events). -/
structure MosaicResult where
  gd : GridDescriptor
  cell : Nat → Nat → Int
  backing : Backing
  warnings : List String
  mixedCrsWarning : Bool

instance : Inhabited MosaicResult :=
  ⟨{ gd := { crs := 0, transform := ⟨1, 0, 0, 0, 1, 0⟩, x_dim := "x", y_dim := "y",
             width := 0, height := 0, nodata := none }
     cell := fun _ _ => 0
     backing := .materialized
     warnings := []
     mixedCrsWarning := false }⟩

/-- Modelled from the spec (§4.4 steps 1–2): reproject the bbox into each
tile's native CRS and select the Tile Records whose geometry intersects it,
keeping the tile index order. -/
def selectTiles (w : World) (tindex : List TileRecord) (bbox : BBox)
    (bboxCrs : CRS) : List TileRecord :=
  tindex.filter (fun t => (w.warpBBox bbox bboxCrs t.crs).intersects t.geometry)

/-- Modelled from the spec (§4.4 step 3): a caller-supplied `dst_crs` takes
precedence; otherwise the CRS of the first selected tile is the default.
The `[]` case is never reached by the engine (selection is nonempty there). -/
def resolvedDstCrs (dstCrs : Option CRS) (sel : List TileRecord) : CRS :=
  match dstCrs with
  | some c => c
  | none =>
    match sel with
    | [] => 0
    | t :: _ => t.crs

/-- Warning message recorded when a tile is skipped (spec §7 local recovery). -/
def skipMsg (location : String) : String :=
  "skipped unreadable tile " ++ location

/-- Modelled from the spec (§4.4 step 4 and §7 local recovery): read and
reproject each selected tile in order; a tile whose read/reprojection fails
is excluded and a warning naming it is recorded, never aborting the loop.
Returns the successfully read tiles (in selection order) and the warnings. -/
def readTiles (w : World) (dstCrs : CRS) (bbox : BBox) (res : Nat) :
    List TileRecord → List ReadTile × List String
  | [] => ([], [])
  | t :: rest =>
    let r := readTiles w dstCrs bbox res rest
    match w.readReproject t dstCrs bbox res with
    | some rt => (rt :: r.1, r.2)
    | none => (r.1, skipMsg t.location :: r.2)

/-- The successfully read-and-reprojected tiles of a call, in selection
order: the merge input of spec §4.4 step 5. -/
def successTiles (w : World) (tindex : List TileRecord) (bbox : BBox)
    (bboxCrs : CRS) (dstCrs : Option CRS) (res : Nat) : List ReadTile :=
  (readTiles w (resolvedDstCrs dstCrs (selectTiles w tindex bbox bboxCrs))
    bbox res (selectTiles w tindex bbox bboxCrs)).1

/-- Painting one tile onto a partial mosaic: a cell already holding data is
kept (first-non-nodata-wins, spec §4.4 step 5); only cells still nodata
receive the tile's value. -/
def paintTile (out : Nat → Nat → Option Int) (t : ReadTile) :
    Nat → Nat → Option Int :=
  fun i j =>
    match out i j with
    | some v => some v
    | none => t.values i j

/-- Modelled from the spec (§4.4 step 5): merge the reprojected tiles in
selection order by sequentially painting them onto an initially all-nodata
grid; a cell once non-nodata is never overwritten, so the merge is
first-non-nodata-wins in tile order. -/
def mergeTiles (tiles : List ReadTile) : Nat → Nat → Option Int :=
  tiles.foldl paintTile (fun _ _ => none)

/-- The common nodata value across tiles, when they all declare the same
one (spec §4.4 step 6). -/
def commonNodata : List (Option Int) → Option Int
  | [] => none
  | n :: rest => if rest.all (fun m => decide (m = n)) then n else none

/-- Type-appropriate sentinel nodata (spec §4.4 step 6 fallback). -/
def sentinelNodata : Int := -9999

/-- Modelled from the spec (§4.4 step 6): resolve the output nodata — the
explicit argument, else the common nodata across the contributing tiles,
else a type-appropriate sentinel. -/
def resolveNodata (explicit : Option Int) (tiles : List ReadTile) : Int :=
  match explicit with
  | some v => v
  | none =>
    match commonNodata (tiles.map (fun t => t.nodata)) with
    | some v => v
    | none => sentinelNodata

/-- Ceiling division, used to snap the bbox extent to the destination
resolution. -/
def ceilDiv (a b : Nat) : Nat := (a + b - 1) / b

/-- Output grid column count: the bbox width snapped up to the destination
resolution (spec data model: extent equals the bbox, possibly snapped). -/
def outWidth (bbox : BBox) (res : Nat) : Nat :=
  ceilDiv (bbox.xmax - bbox.xmin).toNat res

/-- Output grid row count: the bbox height snapped up to the destination
resolution. -/
def outHeight (bbox : BBox) (res : Nat) : Nat :=
  ceilDiv (bbox.ymax - bbox.ymin).toNat res

/-- Output affine transform: column edges advance by `res` from `xmin`, row
edges descend by `res` from `ymax` (north-up grid anchored at the bbox). -/
def outTransform (bbox : BBox) (res : Nat) : Affine :=
  ⟨(res : Int), 0, bbox.xmin, 0, -(res : Int), bbox.ymax⟩

/-- Merge and package the successfully read tiles (spec §4.4 steps 5–6):
first-non-nodata-wins merge, resolved nodata applied to all cells never
covered by any tile, Grid Descriptor built from `dst_crs` and the
bbox-derived extent, result fully materialized. -/
def assembleMosaic (bbox : BBox) (dstCrs : CRS) (nodata : Option Int)
    (res : Nat) (tiles : List ReadTile) (warns : List String)
    (mixed : Bool) : MosaicResult :=
  let nd := resolveNodata nodata tiles
  { gd := { crs := dstCrs, transform := outTransform bbox res,
            x_dim := "x", y_dim := "y",
            width := outWidth bbox res, height := outHeight bbox res,
            nodata := some nd }
    cell := fun i j => (mergeTiles tiles i j).getD nd
    backing := .materialized
    warnings := warns
    mixedCrsWarning := mixed }

/-- Modelled from the spec: `open_raster_from_tindex(tindex, bbox, dst_crs,
nodata)` (§4.4).  Selects the tiles intersecting the bbox (EmptyResultError
when none), resolves the destination CRS (caller value, else first selected
tile's CRS, warning on mixed native CRSs), reads and reprojects each tile
(skipping failures with a warning; EmptyResultError when all fail), merges
first-non-nodata-wins in selection order, and fills uncovered cells with the
resolved nodata.  The result is always fully materialized: this reader has
no lazy/chunked mode. -/
def open_raster_from_tindex (w : World) (tindex : List TileRecord)
    (bbox : BBox) (bboxCrs : CRS) (dstCrs : Option CRS) (nodata : Option Int)
    (res : Nat) : Except MosaicError MosaicResult :=
  match selectTiles w tindex bbox bboxCrs with
  | [] => .error (.emptyResult "no tiles intersect the area of interest")
  | t0 :: rest =>
    let dc := resolvedDstCrs dstCrs (t0 :: rest)
    match readTiles w dc bbox res (t0 :: rest) with
    | ([], _) => .error (.emptyResult "all intersecting tiles failed to read")
    | (t :: ts, warns) =>
      .ok (assembleMosaic bbox dc nodata res (t :: ts) warns
        (dstCrs.isNone &&
          !((t0 :: rest).all (fun u => decide (u.crs = t0.crs)))))

/-! ### Concrete fixtures used in closed-form evaluations: two adjacent
2×2-ish UTM-zone tiles with an overlapping border (the spec's §8 scenario),
plus one unreadable tile, and uniform single-layer stacker files. -/

/-- Test tile in UTM zone 32, readable, value 3 on its 2×2 footprint. -/
def tileA : TileRecord := { geometry := ⟨0, 0, 2, 2⟩, crs := 32632, location := "A.tif" }

/-- Test tile in UTM zone 33, readable, value 5, nodata at cell (0, 1). -/
def tileB : TileRecord := { geometry := ⟨1, 0, 3, 2⟩, crs := 32633, location := "B.tif" }

/-- Test tile whose read fails. -/
def tileC : TileRecord := { geometry := ⟨0, 0, 2, 2⟩, crs := 32632, location := "C.tif" }

/-- Tile A as read and reprojected: a 2×2 block of threes. -/
def rtA : ReadTile :=
  { values := fun i j => if i < 2 ∧ j < 2 then some 3 else none
    nodata := some 0 }

/-- Tile B as read and reprojected: fives with one nodata cell at (0, 1). -/
def rtB : ReadTile :=
  { values := fun i j =>
      if i = 0 ∧ j = 1 then none
      else if i < 2 ∧ j < 3 then some 5 else none
    nodata := some 0 }

/-- Test world: bbox warping is the identity, tiles A and B read as `rtA` and
`rtB`, and tile C fails. -/
def wTest : World :=
  { warpBBox := fun b _ _ => b
    readReproject := fun t _ _ _ =>
      if t.location = "A.tif" then some rtA
      else if t.location = "B.tif" then some rtB
      else none }

/-- Test area of interest. -/
def bbTest : BBox := ⟨0, 0, 3, 2⟩

/-- Mosaic run over tiles A then B (both readable, overlapping). -/
def run1 : Except MosaicError MosaicResult :=
  open_raster_from_tindex wTest [tileA, tileB] bbTest 4326 none none 1

/-- The result of `run1`. -/
def mres1 : MosaicResult :=
  match run1 with
  | .ok r => r
  | .error _ => default

/-- Mosaic run over tile A and the unreadable tile C. -/
def run2 : Except MosaicError MosaicResult :=
  open_raster_from_tindex wTest [tileA, tileC] bbTest 4326 none none 1

/-- The result of `run2`. -/
def mres2 : MosaicResult :=
  match run2 with
  | .ok r => r
  | .error _ => default

/-! ### Claims -/

/-- Mosaic run over tiles A then B with a caller-supplied destination CRS. -/
def run3 : Except MosaicError MosaicResult :=
  open_raster_from_tindex wTest [tileA, tileB] bbTest 4326 (some 32633) none 1

/-- The result of `run3`. -/
def mres3 : MosaicResult :=
  match run3 with
  | .ok r => r
  | .error _ => default

/-- Mosaic run over tiles A then B with an explicit nodata argument. -/
def run4 : Except MosaicError MosaicResult :=
  open_raster_from_tindex wTest [tileA, tileB] bbTest 4326 none (some 7) 1

/-- The result of `run4`. -/
def mres4 : MosaicResult :=
  match run4 with
  | .ok r => r
  | .error _ => default

instance : Inhabited LabeledDataset :=
  ⟨{ gd := { crs := 0, transform := ⟨1, 0, 0, 0, 1, 0⟩, x_dim := "x",
             y_dim := "y", width := 0, height := 0, nodata := none }
     vars := []
     backing := .materialized }⟩

/-- Descriptor shared by the uniform stacker fixtures. -/
def gdTest : GridDescriptor :=
  { crs := 4326, transform := ⟨1, 0, 0, 0, -1, 0⟩, x_dim := "x", y_dim := "y",
    width := 2, height := 1, nodata := some 0 }

/-- Uniform-grid source file fixture. -/
def fileX : RasterFile := { name := "x.tif", gd := gdTest, data := [1, 2] }

/-- Uniform-grid source file fixture. -/
def fileY : RasterFile := { name := "y.tif", gd := gdTest, data := [3, 4] }

/-- Source file fixture whose grid disagrees with `gdTest` (shifted
transform). -/
def fileZ : RasterFile :=
  { name := "z.tif"
    gd := { crs := 4326, transform := ⟨1, 0, 5, 0, -1, 0⟩, x_dim := "x",
            y_dim := "y", width := 2, height := 1, nodata := some 0 }
    data := [9, 9] }

/-- Stacker run over the uniform fixtures with a chunk specification. -/
def runMf : Except StackError LabeledDataset :=
  open_mfraster [fileX, fileY] false (some [("x", 1000)])

/-- The result of `runMf`. -/
def dsMf : LabeledDataset :=
  match runMf with
  | .ok d => d
  | .error _ => default

/-- Stacker run over the uniform fixtures, separate variables. -/
def runSep : Except StackError LabeledDataset :=
  open_mfraster [fileX, fileY] false none

/-- The result of `runSep`. -/
def dsSep : LabeledDataset :=
  match runSep with
  | .ok d => d
  | .error _ => default

/-- Stacker run over the uniform fixtures, concatenated. -/
def runCat : Except StackError LabeledDataset :=
  open_mfraster [fileX, fileY] true none

/-- The result of `runCat`. -/
def dsCat : LabeledDataset :=
  match runCat with
  | .ok d => d
  | .error _ => default

/-- Dataset fixture for the map-stack round trip. -/
def dTest : LabeledDataset :=
  { gd := gdTest
    vars := [{ name := "x", layers := [[1, 2]] },
             { name := "y", layers := [[3, 4]] }]
    backing := .materialized }

/-- Round-trip run: write `dTest` as per-variable files, read them back. -/
def runRt : Except StackError LabeledDataset :=
  open_mfraster (to_mapstack dTest) false none

/-- The result of `runRt`. -/
def dsRt : LabeledDataset :=
  match runRt with
  | .ok d => d
  | .error _ => default

/-! ### Theorems -/

theorem foldl_paintTile (tiles : List ReadTile) (acc : Nat → Nat → Option Int)
    (i j : Nat) :
    (tiles.foldl paintTile acc) i j =
      match acc i j with
      | some v => some v
      | none => tiles.findSome? (fun t => t.values i j) := by
  induction tiles generalizing acc with
  | nil => cases hacc : acc i j <;> simp [hacc]
  | cons t ts ih =>
    simp only [List.foldl_cons]
    rw [ih]
    simp only [paintTile]
    cases hacc : acc i j with
    | some v => simp [List.findSome?_cons]
    | none =>
      cases hv : t.values i j with
      | some v => simp [List.findSome?_cons, hv]
      | none => simp [List.findSome?_cons, hv]

/-- The sequential paint-in-order merge computes, at every cell, the value of
the first tile in order whose value at that cell is not nodata. -/
theorem mergeTiles_eq_findSome (tiles : List ReadTile) (i j : Nat) :
    mergeTiles tiles i j = tiles.findSome? (fun t => t.values i j) := by
  simp [mergeTiles, foldl_paintTile]

/-- A selected tile whose read/reprojection fails contributes a recorded
warning naming its location. -/
theorem skip_warning_mem (w : World) (dc : CRS) (bbox : BBox) (res : Nat)
    (sel : List TileRecord) (t : TileRecord) (hmem : t ∈ sel)
    (hfail : w.readReproject t dc bbox res = none) :
    skipMsg t.location ∈ (readTiles w dc bbox res sel).2 := by
  induction sel with
  | nil => cases hmem
  | cons u us ih =>
    rcases List.mem_cons.mp hmem with h | h
    · subst h
      simp only [readTiles, hfail]
      exact List.mem_cons_self _ _
    · simp only [readTiles]
      cases hu : w.readReproject u dc bbox res with
      | some rt => exact ih h
      | none => exact List.mem_cons_of_mem _ (ih h)

/-- The read loop yields no tile exactly when every selected tile fails. -/
theorem readTiles_fst_nil_iff (w : World) (dc : CRS) (bbox : BBox) (res : Nat)
    (sel : List TileRecord) :
    (readTiles w dc bbox res sel).1 = [] ↔
      ∀ t ∈ sel, w.readReproject t dc bbox res = none := by
  induction sel with
  | nil => simp [readTiles]
  | cons u us ih =>
    simp only [readTiles]
    cases hu : w.readReproject u dc bbox res with
    | some rt => simp [hu]
    | none => simpa [hu] using ih

theorem open_raster_from_tindex_emptysel (w : World) (tindex : List TileRecord)
    (bbox : BBox) (bboxCrs : CRS) (dstCrs : Option CRS) (nodata : Option Int)
    (res : Nat) (hsel : selectTiles w tindex bbox bboxCrs = []) :
    open_raster_from_tindex w tindex bbox bboxCrs dstCrs nodata res =
      .error (.emptyResult "no tiles intersect the area of interest") := by
  simp only [open_raster_from_tindex, hsel]

theorem open_raster_from_tindex_noread (w : World) (tindex : List TileRecord)
    (bbox : BBox) (bboxCrs : CRS) (dstCrs : Option CRS) (nodata : Option Int)
    (res : Nat) (t0 : TileRecord) (rest : List TileRecord) (warns : List String)
    (hsel : selectTiles w tindex bbox bboxCrs = t0 :: rest)
    (hrt : readTiles w (resolvedDstCrs dstCrs (t0 :: rest)) bbox res
      (t0 :: rest) = ([], warns)) :
    open_raster_from_tindex w tindex bbox bboxCrs dstCrs nodata res =
      .error (.emptyResult "all intersecting tiles failed to read") := by
  simp only [open_raster_from_tindex, hsel, hrt]

theorem open_raster_from_tindex_ok_eq (w : World) (tindex : List TileRecord)
    (bbox : BBox) (bboxCrs : CRS) (dstCrs : Option CRS) (nodata : Option Int)
    (res : Nat) (t0 : TileRecord) (rest : List TileRecord) (t : ReadTile)
    (ts : List ReadTile) (warns : List String)
    (hsel : selectTiles w tindex bbox bboxCrs = t0 :: rest)
    (hrt : readTiles w (resolvedDstCrs dstCrs (t0 :: rest)) bbox res
      (t0 :: rest) = (t :: ts, warns)) :
    open_raster_from_tindex w tindex bbox bboxCrs dstCrs nodata res =
      .ok (assembleMosaic bbox (resolvedDstCrs dstCrs (t0 :: rest)) nodata res
        (t :: ts) warns
        (dstCrs.isNone &&
          !((t0 :: rest).all (fun u => decide (u.crs = t0.crs))))) := by
  simp only [open_raster_from_tindex, hsel, hrt]

/-- Under the same hypotheses, the merge input of the call is `t :: ts`. -/
theorem successTiles_eq (w : World) (tindex : List TileRecord) (bbox : BBox)
    (bboxCrs : CRS) (dstCrs : Option CRS) (res : Nat) (t0 : TileRecord)
    (rest : List TileRecord) (tiles : List ReadTile) (warns : List String)
    (hsel : selectTiles w tindex bbox bboxCrs = t0 :: rest)
    (hrt : readTiles w (resolvedDstCrs dstCrs (t0 :: rest)) bbox res
      (t0 :: rest) = (tiles, warns)) :
    successTiles w tindex bbox bboxCrs dstCrs res = tiles := by
  unfold successTiles
  rw [hsel, hrt]

theorem run1_ok : run1 = .ok mres1 := rfl

theorem run2_ok : run2 = .ok mres2 := rfl

/-- C1: in every mosaic produced by `open_raster_from_tindex`, every output
cell equals the value of the first tile in selection order whose reprojected
value at that cell is not nodata (first-non-nodata-wins, not blind
last-write-wins); in particular, with tiles A then B and a cell where B is
nodata and A is not, the cell equals A's value. -/
theorem tindex_merge_first_nonnodata_wins
    (w : World) (tindex : List TileRecord) (bbox : BBox) (bboxCrs : CRS)
    (dstCrs : Option CRS) (nodata : Option Int) (res : Nat) (r : MosaicResult)
    (hok : open_raster_from_tindex w tindex bbox bboxCrs dstCrs nodata res = .ok r)
    (i j : Nat) (v : Int)
    (hfirst : (successTiles w tindex bbox bboxCrs dstCrs res).findSome?
      (fun t => t.values i j) = some v) :
    r.cell i j = v := by
  cases hsel : selectTiles w tindex bbox bboxCrs with
  | nil =>
    rw [open_raster_from_tindex_emptysel w tindex bbox bboxCrs dstCrs nodata res hsel] at hok
    exact absurd hok (by simp)
  | cons t0 rest =>
    cases hrt : readTiles w (resolvedDstCrs dstCrs (t0 :: rest)) bbox res (t0 :: rest) with
    | mk tiles warns =>
      cases tiles with
      | nil =>
        rw [open_raster_from_tindex_noread w tindex bbox bboxCrs dstCrs nodata res
          t0 rest warns hsel hrt] at hok
        exact absurd hok (by simp)
      | cons t ts =>
        rw [open_raster_from_tindex_ok_eq w tindex bbox bboxCrs dstCrs nodata res
          t0 rest t ts warns hsel hrt] at hok
        rw [successTiles_eq w tindex bbox bboxCrs dstCrs res t0 rest (t :: ts) warns
          hsel hrt] at hfirst
        have hcell : r.cell i j = (mergeTiles (t :: ts) i j).getD
            (resolveNodata nodata (t :: ts)) := by
          cases hok
          simp [assembleMosaic]
        rw [hcell, mergeTiles_eq_findSome, hfirst]
        rfl

/-- Witness for C1: in `run1` (tiles A then B), the cell (0, 1) where B is
nodata and A holds 3 comes out as 3. -/
theorem tindex_merge_first_nonnodata_wins_witness : mres1.cell 0 1 = 3 :=
  tindex_merge_first_nonnodata_wins wTest [tileA, tileB] bbTest 4326 none none 1
    mres1 run1_ok 0 1 3 rfl

/-- Columns of the snapped output grid start strictly inside the bbox. -/
theorem mul_lt_of_lt_ceilDiv (len res j : Nat) (hres : 0 < res)
    (hj : j < ceilDiv len res) : j * res < len := by
  unfold ceilDiv at hj
  have h1 : (j + 1) * res ≤ (len + res - 1) / res * res :=
    Nat.mul_le_mul_right res hj
  have h2 : (len + res - 1) / res * res ≤ len + res - 1 :=
    Nat.div_mul_le_self _ _
  have h3 : (j + 1) * res = j * res + res := by ring
  omega

/-- The snapped output grid covers the whole bbox extent. -/
theorem len_le_ceilDiv_mul (len res : Nat) (hres : 0 < res) :
    len ≤ ceilDiv len res * res := by
  unfold ceilDiv
  have h := Nat.div_add_mod (len + res - 1) res
  have hm : (len + res - 1) % res < res := Nat.mod_lt _ hres
  have hc : res * ((len + res - 1) / res) = (len + res - 1) / res * res :=
    Nat.mul_comm _ _
  omega

/-- C3: for every successful `open_raster_from_tindex` call, the output Grid
Descriptor's CRS and transform reflect the resolved `dst_crs` and the
bbox-anchored grid exactly; the width/height are the bbox extent snapped to
the destination resolution, every cell's origin lies strictly inside the
bbox, and the snapped grid covers the whole bbox — independent of the native
extents of the contributing tiles. -/
theorem tindex_output_extent_matches_bbox
    (w : World) (tindex : List TileRecord) (bbox : BBox) (bboxCrs : CRS)
    (dstCrs : Option CRS) (nodata : Option Int) (res : Nat) (r : MosaicResult)
    (hok : open_raster_from_tindex w tindex bbox bboxCrs dstCrs nodata res = .ok r)
    (hres : 0 < res) :
    r.gd.crs = resolvedDstCrs dstCrs (selectTiles w tindex bbox bboxCrs) ∧
    r.gd.transform = outTransform bbox res ∧
    r.gd.width = outWidth bbox res ∧
    r.gd.height = outHeight bbox res ∧
    (∀ j, j < r.gd.width →
      bbox.xmin ≤ bbox.xmin + ((j * res : Nat) : Int) ∧
      bbox.xmin + ((j * res : Nat) : Int) < bbox.xmax) ∧
    (∀ i, i < r.gd.height →
      bbox.ymin < bbox.ymax - ((i * res : Nat) : Int) ∧
      bbox.ymax - ((i * res : Nat) : Int) ≤ bbox.ymax) ∧
    bbox.xmax - bbox.xmin ≤ ((outWidth bbox res * res : Nat) : Int) ∧
    bbox.ymax - bbox.ymin ≤ ((outHeight bbox res * res : Nat) : Int) := by
  have hxcov : (bbox.xmax - bbox.xmin).toNat ≤ outWidth bbox res * res :=
    len_le_ceilDiv_mul _ res hres
  have hycov : (bbox.ymax - bbox.ymin).toNat ≤ outHeight bbox res * res :=
    len_le_ceilDiv_mul _ res hres
  cases hsel : selectTiles w tindex bbox bboxCrs with
  | nil =>
    rw [open_raster_from_tindex_emptysel w tindex bbox bboxCrs dstCrs nodata res
      hsel] at hok
    exact absurd hok (by simp)
  | cons t0 rest =>
    cases hrt : readTiles w (resolvedDstCrs dstCrs (t0 :: rest)) bbox res
        (t0 :: rest) with
    | mk tiles warns =>
      cases tiles with
      | nil =>
        rw [open_raster_from_tindex_noread w tindex bbox bboxCrs dstCrs nodata
          res t0 rest warns hsel hrt] at hok
        exact absurd hok (by simp)
      | cons t ts =>
        rw [open_raster_from_tindex_ok_eq w tindex bbox bboxCrs dstCrs nodata
          res t0 rest t ts warns hsel hrt] at hok
        cases hok
        refine ⟨by simp [assembleMosaic], by simp [assembleMosaic],
          by simp [assembleMosaic], by simp [assembleMosaic], ?_, ?_, ?_, ?_⟩
        · intro j hj
          have hw : (assembleMosaic bbox (resolvedDstCrs dstCrs (t0 :: rest))
              nodata res (t :: ts) warns
              (dstCrs.isNone &&
                !((t0 :: rest).all (fun u => decide (u.crs = t0.crs))))).gd.width
              = outWidth bbox res := by simp [assembleMosaic]
          rw [hw] at hj
          have hnat := mul_lt_of_lt_ceilDiv (bbox.xmax - bbox.xmin).toNat res j
            hres hj
          omega
        · intro i hi
          have hh : (assembleMosaic bbox (resolvedDstCrs dstCrs (t0 :: rest))
              nodata res (t :: ts) warns
              (dstCrs.isNone &&
                !((t0 :: rest).all (fun u => decide (u.crs = t0.crs))))).gd.height
              = outHeight bbox res := by simp [assembleMosaic]
          rw [hh] at hi
          have hnat := mul_lt_of_lt_ceilDiv (bbox.ymax - bbox.ymin).toNat res i
            hres hi
          omega
        · omega
        · omega

/-- Witness for C3: in `run1` the output CRS is tile A's UTM zone and the
3-unit-wide bbox at resolution 1 yields exactly 3 columns. -/
theorem tindex_output_extent_matches_bbox_witness :
    mres1.gd.crs = 32632 ∧ mres1.gd.width = 3 :=
  ⟨(tindex_output_extent_matches_bbox wTest [tileA, tileB] bbTest 4326 none
      none 1 mres1 run1_ok (by decide)).1.trans rfl,
    (tindex_output_extent_matches_bbox wTest [tileA, tileB] bbTest 4326 none
      none 1 mres1 run1_ok (by decide)).2.2.1.trans rfl⟩

/-- C2: `open_raster_from_tindex` fails (with an EmptyResultError-kind error,
the only fatal kind it raises) exactly when zero tiles contribute — no tile
intersects the bbox, or every intersecting tile failed to read/reproject; a
single tile's failure while the call succeeds is recorded as a warning naming
the tile, never aborting the mosaic. -/
theorem tindex_empty_result_and_skip_policy
    (w : World) (tindex : List TileRecord) (bbox : BBox) (bboxCrs : CRS)
    (dstCrs : Option CRS) (nodata : Option Int) (res : Nat) :
    ((∀ r, open_raster_from_tindex w tindex bbox bboxCrs dstCrs nodata res ≠ .ok r) ↔
      (selectTiles w tindex bbox bboxCrs = [] ∨
        ∀ t ∈ selectTiles w tindex bbox bboxCrs,
          w.readReproject t
            (resolvedDstCrs dstCrs (selectTiles w tindex bbox bboxCrs)) bbox res
            = none)) ∧
    (∀ e, open_raster_from_tindex w tindex bbox bboxCrs dstCrs nodata res = .error e →
      ∃ m, e = .emptyResult m) ∧
    (∀ r, open_raster_from_tindex w tindex bbox bboxCrs dstCrs nodata res = .ok r →
      ∀ t ∈ selectTiles w tindex bbox bboxCrs,
        w.readReproject t
          (resolvedDstCrs dstCrs (selectTiles w tindex bbox bboxCrs)) bbox res
          = none →
        skipMsg t.location ∈ r.warnings) := by
  refine ⟨?_, ?_, ?_⟩
  · constructor
    · intro hno
      cases hsel : selectTiles w tindex bbox bboxCrs with
      | nil => exact Or.inl rfl
      | cons t0 rest =>
        refine Or.inr ?_
        intro t hmem
        by_contra hne
        cases hrt : readTiles w (resolvedDstCrs dstCrs (t0 :: rest)) bbox res
            (t0 :: rest) with
        | mk tiles warns =>
          cases tiles with
          | nil =>
            have hall := (readTiles_fst_nil_iff w
              (resolvedDstCrs dstCrs (t0 :: rest)) bbox res (t0 :: rest)).mp
              (by rw [hrt])
            exact hne (hall t hmem)
          | cons a as =>
            exact hno _ (open_raster_from_tindex_ok_eq w tindex bbox bboxCrs
              dstCrs nodata res t0 rest a as warns hsel hrt)
    · intro hor r hok
      rcases hor with hsel | hall
      · rw [open_raster_from_tindex_emptysel w tindex bbox bboxCrs dstCrs nodata
          res hsel] at hok
        exact absurd hok (by simp)
      · cases hsel : selectTiles w tindex bbox bboxCrs with
        | nil =>
          rw [open_raster_from_tindex_emptysel w tindex bbox bboxCrs dstCrs
            nodata res hsel] at hok
          exact absurd hok (by simp)
        | cons t0 rest =>
          rw [hsel] at hall
          have hnil : (readTiles w (resolvedDstCrs dstCrs (t0 :: rest)) bbox res
              (t0 :: rest)).1 = [] :=
            (readTiles_fst_nil_iff w (resolvedDstCrs dstCrs (t0 :: rest)) bbox
              res (t0 :: rest)).mpr hall
          cases hrt : readTiles w (resolvedDstCrs dstCrs (t0 :: rest)) bbox res
              (t0 :: rest) with
          | mk tiles warns =>
            rw [hrt] at hnil
            cases hnil
            rw [open_raster_from_tindex_noread w tindex bbox bboxCrs dstCrs
              nodata res t0 rest warns hsel hrt] at hok
            exact absurd hok (by simp)
  · intro e _
    cases e with
    | emptyResult m => exact ⟨m, rfl⟩
  · intro r hok t hmem hfail
    cases hsel : selectTiles w tindex bbox bboxCrs with
    | nil =>
      rw [open_raster_from_tindex_emptysel w tindex bbox bboxCrs dstCrs nodata
        res hsel] at hok
      exact absurd hok (by simp)
    | cons t0 rest =>
      rw [hsel] at hmem hfail
      cases hrt : readTiles w (resolvedDstCrs dstCrs (t0 :: rest)) bbox res
          (t0 :: rest) with
      | mk tiles warns =>
        cases tiles with
        | nil =>
          rw [open_raster_from_tindex_noread w tindex bbox bboxCrs dstCrs nodata
            res t0 rest warns hsel hrt] at hok
          exact absurd hok (by simp)
        | cons a as =>
          rw [open_raster_from_tindex_ok_eq w tindex bbox bboxCrs dstCrs nodata
            res t0 rest a as warns hsel hrt] at hok
          have hmemw := skip_warning_mem w (resolvedDstCrs dstCrs (t0 :: rest))
            bbox res (t0 :: rest) t hmem hfail
          rw [hrt] at hmemw
          cases hok
          simpa [assembleMosaic] using hmemw

/-- Witness for C2: in `run2`, tile C fails to read while tile A succeeds; the
call succeeds and records the skip warning naming C. -/
theorem tindex_empty_result_and_skip_policy_witness :
    skipMsg "C.tif" ∈ mres2.warnings :=
  (tindex_empty_result_and_skip_policy wTest [tileA, tileC] bbTest 4326 none
    none 1).2.2 mres2 run2_ok tileC (by decide) rfl

theorem run3_ok : run3 = .ok mres3 := rfl

theorem run4_ok : run4 = .ok mres4 := rfl

/-- C7: in `open_raster_from_tindex`, a caller-supplied `dst_crs` always
takes precedence; without one, the CRS of the first selected tile is the
default, and the mixed-CRS warning is raised exactly when no `dst_crs` was
supplied and the selected tiles span multiple native CRSs. -/
theorem tindex_dst_crs_resolution
    (w : World) (tindex : List TileRecord) (bbox : BBox) (bboxCrs : CRS)
    (dstCrs : Option CRS) (nodata : Option Int) (res : Nat) (r : MosaicResult)
    (hok : open_raster_from_tindex w tindex bbox bboxCrs dstCrs nodata res = .ok r) :
    (∀ c, dstCrs = some c → r.gd.crs = c) ∧
    (∀ t0 rest, selectTiles w tindex bbox bboxCrs = t0 :: rest →
      (dstCrs = none → r.gd.crs = t0.crs) ∧
      (r.mixedCrsWarning = true ↔ dstCrs = none ∧
        (t0 :: rest).all (fun u => decide (u.crs = t0.crs)) = false)) := by
  cases hsel : selectTiles w tindex bbox bboxCrs with
  | nil =>
    rw [open_raster_from_tindex_emptysel w tindex bbox bboxCrs dstCrs nodata res
      hsel] at hok
    exact absurd hok (by simp)
  | cons t0 rest =>
    cases hrt : readTiles w (resolvedDstCrs dstCrs (t0 :: rest)) bbox res
        (t0 :: rest) with
    | mk tiles warns =>
      cases tiles with
      | nil =>
        rw [open_raster_from_tindex_noread w tindex bbox bboxCrs dstCrs nodata
          res t0 rest warns hsel hrt] at hok
        exact absurd hok (by simp)
      | cons t ts =>
        rw [open_raster_from_tindex_ok_eq w tindex bbox bboxCrs dstCrs nodata
          res t0 rest t ts warns hsel hrt] at hok
        cases hok
        constructor
        · intro c hc
          simp [assembleMosaic, resolvedDstCrs, hc]
        · intro t0' rest' hsel'
          injection hsel' with h1 h2
          subst h1
          subst h2
          constructor
          · intro hc
            simp [assembleMosaic, resolvedDstCrs, hc]
          · cases dstCrs with
            | some c => simp [assembleMosaic]
            | none =>
              cases hall : (t0 :: rest).all (fun u => decide (u.crs = t0.crs)) with
              | true => simp [assembleMosaic, hall]
              | false => simp [assembleMosaic, hall]

/-- Witness for C7: with `dst_crs = 32633` supplied, `run3` uses it; without
one, `run1` defaults to tile A's CRS 32632 and raises the mixed-CRS warning
because tile B natively uses 32633. -/
theorem tindex_dst_crs_resolution_witness :
    mres3.gd.crs = 32633 ∧ mres1.gd.crs = 32632 ∧
      mres1.mixedCrsWarning = true :=
  ⟨(tindex_dst_crs_resolution wTest [tileA, tileB] bbTest 4326 (some 32633)
      none 1 mres3 run3_ok).1 32633 rfl,
    ((tindex_dst_crs_resolution wTest [tileA, tileB] bbTest 4326 none none 1
      mres1 run1_ok).2 tileA [tileB] rfl).1 rfl,
    ((tindex_dst_crs_resolution wTest [tileA, tileB] bbTest 4326 none none 1
      mres1 run1_ok).2 tileA [tileB] rfl).2.mpr ⟨rfl, rfl⟩⟩

/-- C8: in the mosaic result, every cell never covered by any contributing
tile holds the resolved nodata, and nodata resolution follows the precedence
explicit argument, else common nodata across the tiles, else the
type-appropriate sentinel; the resolved nodata is also recorded in the Grid
Descriptor. -/
theorem tindex_nodata_resolution_and_fill
    (w : World) (tindex : List TileRecord) (bbox : BBox) (bboxCrs : CRS)
    (dstCrs : Option CRS) (nodata : Option Int) (res : Nat) (r : MosaicResult)
    (hok : open_raster_from_tindex w tindex bbox bboxCrs dstCrs nodata res = .ok r) :
    (∀ i j, (∀ t ∈ successTiles w tindex bbox bboxCrs dstCrs res,
        t.values i j = none) →
      r.cell i j = resolveNodata nodata (successTiles w tindex bbox bboxCrs dstCrs res)) ∧
    r.gd.nodata = some (resolveNodata nodata (successTiles w tindex bbox bboxCrs dstCrs res)) ∧
    (∀ v, nodata = some v →
      resolveNodata nodata (successTiles w tindex bbox bboxCrs dstCrs res) = v) ∧
    (∀ v, nodata = none →
      commonNodata ((successTiles w tindex bbox bboxCrs dstCrs res).map
        (fun t => t.nodata)) = some v →
      resolveNodata nodata (successTiles w tindex bbox bboxCrs dstCrs res) = v) ∧
    (nodata = none →
      commonNodata ((successTiles w tindex bbox bboxCrs dstCrs res).map
        (fun t => t.nodata)) = none →
      resolveNodata nodata (successTiles w tindex bbox bboxCrs dstCrs res)
        = sentinelNodata) := by
  cases hsel : selectTiles w tindex bbox bboxCrs with
  | nil =>
    rw [open_raster_from_tindex_emptysel w tindex bbox bboxCrs dstCrs nodata res
      hsel] at hok
    exact absurd hok (by simp)
  | cons t0 rest =>
    cases hrt : readTiles w (resolvedDstCrs dstCrs (t0 :: rest)) bbox res
        (t0 :: rest) with
    | mk tiles warns =>
      cases tiles with
      | nil =>
        rw [open_raster_from_tindex_noread w tindex bbox bboxCrs dstCrs nodata
          res t0 rest warns hsel hrt] at hok
        exact absurd hok (by simp)
      | cons t ts =>
        have hst := successTiles_eq w tindex bbox bboxCrs dstCrs res t0 rest
          (t :: ts) warns hsel hrt
        rw [open_raster_from_tindex_ok_eq w tindex bbox bboxCrs dstCrs nodata
          res t0 rest t ts warns hsel hrt] at hok
        cases hok
        rw [hst]
        refine ⟨?_, ?_, ?_, ?_, ?_⟩
        · intro i j hall
          have hnone : (t :: ts).findSome? (fun u => u.values i j) = none :=
            List.findSome?_eq_none_iff.mpr hall
          simp [assembleMosaic, mergeTiles_eq_findSome, hnone]
        · simp [assembleMosaic]
        · intro v hv
          simp [resolveNodata, hv]
        · intro v hv hc
          rw [List.map_cons] at hc
          simp [resolveNodata, hv, hc]
        · intro hv hc
          rw [List.map_cons] at hc
          simp [resolveNodata, hv, hc]

/-- Witness for C8: `run1` resolves nodata to the common tile nodata 0 and
fills the uncovered cell (5, 5) with it; `run4` resolves the explicit
argument 7. -/
theorem tindex_nodata_resolution_and_fill_witness :
    mres1.cell 5 5 = 0 ∧ mres1.gd.nodata = some 0 ∧ mres4.gd.nodata = some 7 := by
  have hall : ∀ t ∈ successTiles wTest [tileA, tileB] bbTest 4326 none 1,
      t.values 5 5 = none := by
    intro t ht
    rw [show successTiles wTest [tileA, tileB] bbTest 4326 none 1 = [rtA, rtB]
      from rfl] at ht
    rcases List.mem_cons.mp ht with h | h
    · rw [h]; rfl
    · rcases List.mem_cons.mp h with h2 | h2
      · rw [h2]; rfl
      · cases h2
  refine ⟨?_, ?_, ?_⟩
  · exact ((tindex_nodata_resolution_and_fill wTest [tileA, tileB] bbTest 4326
      none none 1 mres1 run1_ok).1 5 5 hall).trans rfl
  · exact (tindex_nodata_resolution_and_fill wTest [tileA, tileB] bbTest 4326
      none none 1 mres1 run1_ok).2.1.trans rfl
  · exact (tindex_nodata_resolution_and_fill wTest [tileA, tileB] bbTest 4326
      none (some 7) 1 mres4 run4_ok).2.1.trans rfl

theorem runMf_ok : runMf = .ok dsMf := rfl

/-- C10: `open_raster_from_tindex` has no lazy/chunked mode — every
successful mosaic is fully materialized at call time — whereas `open_mfraster`
given a chunk specification returns a dataset deferred per that
specification. -/
theorem tindex_always_materialized
    (w : World) (tindex : List TileRecord) (bbox : BBox) (bboxCrs : CRS)
    (dstCrs : Option CRS) (nodata : Option Int) (res : Nat) (r : MosaicResult)
    (hok : open_raster_from_tindex w tindex bbox bboxCrs dstCrs nodata res = .ok r) :
    r.backing = Backing.materialized ∧
    (∀ (files : List RasterFile) (concat : Bool)
        (cs : List (String × Nat)) (d : LabeledDataset),
      open_mfraster files concat (some cs) = .ok d →
      d.backing = Backing.deferred cs) := by
  constructor
  · cases hsel : selectTiles w tindex bbox bboxCrs with
    | nil =>
      rw [open_raster_from_tindex_emptysel w tindex bbox bboxCrs dstCrs nodata
        res hsel] at hok
      exact absurd hok (by simp)
    | cons t0 rest =>
      cases hrt : readTiles w (resolvedDstCrs dstCrs (t0 :: rest)) bbox res
          (t0 :: rest) with
      | mk tiles warns =>
        cases tiles with
        | nil =>
          rw [open_raster_from_tindex_noread w tindex bbox bboxCrs dstCrs
            nodata res t0 rest warns hsel hrt] at hok
          exact absurd hok (by simp)
        | cons t ts =>
          rw [open_raster_from_tindex_ok_eq w tindex bbox bboxCrs dstCrs
            nodata res t0 rest t ts warns hsel hrt] at hok
          cases hok
          simp [assembleMosaic]
  · intro files concat cs d hmf
    cases files with
    | nil => exact absurd hmf (by simp [open_mfraster])
    | cons f0 rest =>
      simp only [open_mfraster] at hmf
      cases hf : (f0 :: rest).find? (fun f => decide (gridKey f ≠ gridKey f0)) with
      | some f =>
        rw [hf] at hmf
        exact absurd hmf (by simp)
      | none =>
        rw [hf] at hmf
        cases concat with
        | true =>
          simp only [if_true] at hmf
          cases hmf
          rfl
        | false =>
          simp only [if_false] at hmf
          cases hmf
          rfl

/-- Witness for C10: `run1`'s mosaic is materialized, and the chunked stacker
run `runMf` is deferred per its chunk specification. -/
theorem tindex_always_materialized_witness :
    mres1.backing = Backing.materialized ∧
      dsMf.backing = Backing.deferred [("x", 1000)] :=
  ⟨(tindex_always_materialized wTest [tileA, tileB] bbTest 4326 none none 1
      mres1 run1_ok).1,
    (tindex_always_materialized wTest [tileA, tileB] bbTest 4326 none none 1
      mres1 run1_ok).2 [fileX, fileY] false [("x", 1000)] dsMf runMf_ok⟩

/-- Unfolding of `open_mfraster` on a nonempty source list. -/
theorem open_mfraster_cons (f0 : RasterFile) (rest : List RasterFile)
    (concat : Bool) (cs : Option (List (String × Nat))) :
    open_mfraster (f0 :: rest) concat cs =
      match (f0 :: rest).find? (fun f => decide (gridKey f ≠ gridKey f0)) with
      | some f => .error (.gridMismatch f.name)
      | none => .ok (stackData f0 rest concat cs) := rfl

/-- `find?` returns the element at the first index satisfying the
predicate. -/
theorem find?_eq_of_first {α : Type} (p : α → Bool) (l : List α) (i : Nat)
    (hi : i < l.length) (hp : p (l.get ⟨i, hi⟩) = true)
    (hfirst : ∀ j (hj : j < i), p (l.get ⟨j, lt_trans hj hi⟩) = false) :
    l.find? p = some (l.get ⟨i, hi⟩) := by
  induction l generalizing i with
  | nil => simp at hi
  | cons a as ih =>
    cases i with
    | zero =>
      exact List.find?_cons_of_pos _ hp
    | succ n =>
      have ha : p a = false := hfirst 0 (Nat.succ_pos n)
      have hr : as.find? p = some (as.get ⟨n, Nat.lt_of_succ_lt_succ hi⟩) :=
        ih n (Nat.lt_of_succ_lt_succ hi) hp
          (fun j hj => hfirst (j + 1) (Nat.succ_lt_succ hj))
      rw [List.find?_cons_of_neg _ (by simp [ha])]
      exact hr

/-- Appending the `.tif` extension and stripping it round-trips. -/
theorem stripTif_append (s : String) : stripTif (s ++ ".tif") = s := by
  unfold stripTif
  have hdata : (s ++ ".tif").toList = s.toList ++ ['.', 't', 'i', 'f'] := by
    simp [String.toList, String.data_append]
  rw [hdata, List.reverse_append]
  have hrev : (['.', 't', 'i', 'f'] : List Char).reverse = ['f', 'i', 't', '.'] := rfl
  rw [hrev]
  have htake : ((['f', 'i', 't', '.'] : List Char) ++ s.toList.reverse).take 4
      = ['f', 'i', 't', '.'] := List.take_left' rfl
  rw [htake, if_pos rfl]
  have hlen : (s.toList ++ ['.', 't', 'i', 'f']).length - 4 = s.toList.length := by
    simp
  rw [hlen, List.take_left' rfl]
  rfl

/-- Re-reading the per-variable files written for single-layer variables
recovers the variable list. -/
theorem map_stack_vars (g : GridDescriptor) (l : List Variable)
    (hsingle : ∀ v ∈ l, ∃ x, v.layers = [x]) :
    (l.map (fun v =>
        ({ name := v.name ++ ".tif", gd := g, data := v.layers.headD [] }
          : RasterFile))).map
      (fun f => ({ name := stripTif f.name, layers := [f.data] } : Variable))
      = l := by
  induction l with
  | nil => rfl
  | cons v vsl ih =>
    simp only [List.map_cons]
    obtain ⟨x, hx⟩ := hsingle v (List.mem_cons_self _ _)
    have hv :
        ({ name := stripTif (v.name ++ ".tif"), layers := [v.layers.headD []] }
          : Variable) = v := by
      cases v with
      | mk nm ls =>
        simp only at hx
        rw [hx]
        simp [stripTif_append]
    rw [hv, ih (fun u hu => hsingle u (List.mem_cons_of_mem _ hu))]

/-- C4: for every nonempty uniform-grid file set, `open_mfraster` with
`concat = False` succeeds with one variable per source file (name derived
from the file name, in input order), and the output Grid Descriptor matches
every input file's descriptor exactly. -/
theorem mfraster_separate_variables
    (files : List RasterFile) (cs : Option (List (String × Nat)))
    (g : GridDescriptor) (hg : ∀ f ∈ files, f.gd = g) (hne : files ≠ []) :
    ∃ d, open_mfraster files false cs = .ok d ∧
      d.vars.length = files.length ∧
      (∀ f ∈ files, d.gd = f.gd) ∧
      d.vars = files.map
        (fun f => { name := stripTif f.name, layers := [f.data] }) := by
  cases files with
  | nil => exact absurd rfl hne
  | cons f0 rest =>
    have h0 : f0.gd = g := hg f0 (List.mem_cons_self _ _)
    have hfind : (f0 :: rest).find? (fun f => decide (gridKey f ≠ gridKey f0))
        = none := by
      rw [List.find?_eq_none]
      intro f hf
      simp [gridKey, hg f hf, h0]
    refine ⟨{ gd := f0.gd
              vars := (f0 :: rest).map
                (fun f => { name := stripTif f.name, layers := [f.data] })
              backing := match cs with
                | some c => .deferred c
                | none => .materialized }, ?_, by simp, ?_, rfl⟩
    · rw [open_mfraster_cons, hfind]
      rfl
    · intro f hf
      show f0.gd = f.gd
      rw [hg f hf, h0]

/-- C5: for every nonempty uniform-grid file set, `open_mfraster` with
`concat = True` succeeds with exactly one variable whose
concatenation-dimension length equals the input count, layers in input
order; a glob-pattern call reads the name-sorted matches, keeping the
ordering deterministic. -/
theorem mfraster_concat_single_variable
    (files : List RasterFile) (cs : Option (List (String × Nat)))
    (g : GridDescriptor) (hg : ∀ f ∈ files, f.gd = g) (hne : files ≠ []) :
    (∃ d, open_mfraster files true cs = .ok d ∧
      d.vars.length = 1 ∧
      (∀ v ∈ d.vars, v.layers = files.map (fun f => f.data)) ∧
      (∀ v ∈ d.vars, v.layers.length = files.length)) ∧
    (∀ (dir : List RasterFile) (pat : String → Bool),
      open_mfraster_glob dir pat true cs =
        open_mfraster (sortByName (dir.filter (fun f => pat f.name))) true cs) := by
  constructor
  · cases files with
    | nil => exact absurd rfl hne
    | cons f0 rest =>
      have h0 : f0.gd = g := hg f0 (List.mem_cons_self _ _)
      have hfind : (f0 :: rest).find? (fun f => decide (gridKey f ≠ gridKey f0))
          = none := by
        rw [List.find?_eq_none]
        intro f hf
        simp [gridKey, hg f hf, h0]
      refine ⟨{ gd := f0.gd
                vars := [{ name := stripTif f0.name
                           layers := (f0 :: rest).map (fun f => f.data) }]
                backing := match cs with
                  | some c => .deferred c
                  | none => .materialized }, ?_, by simp, ?_, ?_⟩
      · rw [open_mfraster_cons, hfind]
        rfl
      · intro v hv
        rcases List.mem_cons.mp hv with h | h
        · rw [h]
        · cases h
      · intro v hv
        rcases List.mem_cons.mp hv with h | h
        · rw [h]; simp
        · cases h
  · intro dir pat
    rfl

/-- C6: whenever some file's grid (transform or x/y extents) differs from the
first file's, `open_mfraster` fails with a GridMismatchError naming the first
mismatching file, and never returns a dataset (no silent resampling). -/
theorem mfraster_grid_mismatch_first
    (files : List RasterFile) (f0 : RasterFile) (rest : List RasterFile)
    (hf : files = f0 :: rest) (concat : Bool)
    (cs : Option (List (String × Nat))) (i : Nat) (hi : i < files.length)
    (hmis : gridKey (files.get ⟨i, hi⟩) ≠ gridKey f0)
    (hfirst : ∀ j (hj : j < i), gridKey (files.get ⟨j, lt_trans hj hi⟩) = gridKey f0) :
    open_mfraster files concat cs =
      .error (.gridMismatch (files.get ⟨i, hi⟩).name) ∧
    ∀ d, open_mfraster files concat cs ≠ .ok d := by
  subst hf
  have hfind : (f0 :: rest).find? (fun f => decide (gridKey f ≠ gridKey f0))
      = some ((f0 :: rest).get ⟨i, hi⟩) :=
    find?_eq_of_first _ _ i hi (decide_eq_true hmis)
      (fun j hj => decide_eq_false (fun hne => hne (hfirst j hj)))
  constructor
  · simp only [open_mfraster, hfind]
  · intro d
    simp only [open_mfraster, hfind]
    simp

/-- Witness for C6: stacking `fileX` with the shifted-grid `fileZ` fails with
a GridMismatchError naming `z.tif`. -/
theorem mfraster_grid_mismatch_first_witness :
    open_mfraster [fileX, fileZ] false none =
      .error (.gridMismatch "z.tif") :=
  (mfraster_grid_mismatch_first [fileX, fileZ] fileX [fileZ] rfl false none 1
    (by decide) (by decide)
    (fun j hj => by
      have hj0 : j = 0 := by omega
      subst hj0
      rfl)).1

/-- C9: writing a Labeled Dataset of single-layer variables out as one raster
file per variable and re-reading with `open_mfraster` reproduces the original
variables (names and arrays) and Grid Descriptor exactly. -/
theorem mapstack_roundtrip
    (d : LabeledDataset) (hne : d.vars ≠ [])
    (hsingle : ∀ v ∈ d.vars, ∃ x, v.layers = [x]) :
    ∃ d2, open_mfraster (to_mapstack d) false none = .ok d2 ∧
      d2.gd = d.gd ∧ d2.vars = d.vars := by
  have hgd : ∀ f ∈ to_mapstack d, f.gd = d.gd := by
    intro f hf
    simp only [to_mapstack] at hf
    obtain ⟨v, -, hv⟩ := List.mem_map.mp hf
    rw [← hv]
  have hne2 : to_mapstack d ≠ [] := by
    intro hcon
    apply hne
    simpa [to_mapstack] using hcon
  obtain ⟨d2, hok, -, hgd2, hvars⟩ :=
    mfraster_separate_variables (to_mapstack d) none d.gd hgd hne2
  refine ⟨d2, hok, ?_, ?_⟩
  · cases hd : d.vars with
    | nil => exact absurd hd hne
    | cons v0 vs =>
      have hmem :
          ({ name := v0.name ++ ".tif", gd := d.gd, data := v0.layers.headD [] }
            : RasterFile) ∈ to_mapstack d :=
        List.mem_map_of_mem _ (by rw [hd]; exact List.mem_cons_self _ _)
      exact (hgd2 _ hmem).trans rfl
  · rw [hvars]
    exact map_stack_vars d.gd d.vars hsingle

theorem runSep_ok : runSep = .ok dsSep := rfl

theorem runCat_ok : runCat = .ok dsCat := rfl

theorem runRt_ok : runRt = .ok dsRt := rfl

/-- Witness for C4: stacking the two uniform fixtures with `concat = False`
yields two variables. -/
theorem mfraster_separate_variables_witness : dsSep.vars.length = 2 := by
  obtain ⟨d, hd, hlen, -, -⟩ := mfraster_separate_variables [fileX, fileY] none
    gdTest (by intro f hf; fin_cases hf <;> rfl) (by simp)
  have h2 : (Except.ok d : Except StackError LabeledDataset) = .ok dsSep := by
    rw [← hd]
    exact runSep_ok
  injection h2 with h
  rw [← h]
  exact hlen

/-- Witness for C5: stacking the two uniform fixtures with `concat = True`
yields one variable of two layers. -/
theorem mfraster_concat_single_variable_witness :
    dsCat.vars.length = 1 ∧ ∀ v ∈ dsCat.vars, v.layers.length = 2 := by
  obtain ⟨⟨d, hd, hlen, -, hcnt⟩, -⟩ := mfraster_concat_single_variable
    [fileX, fileY] none gdTest (by intro f hf; fin_cases hf <;> rfl) (by simp)
  have h2 : (Except.ok d : Except StackError LabeledDataset) = .ok dsCat := by
    rw [← hd]
    exact runCat_ok
  injection h2 with h
  rw [← h]
  exact ⟨hlen, hcnt⟩

/-- Witness for C9: the round trip over `dTest` reproduces its descriptor and
variables. -/
theorem mapstack_roundtrip_witness : dsRt.gd = dTest.gd ∧ dsRt.vars = dTest.vars := by
  obtain ⟨d2, hok, hgd, hvars⟩ := mapstack_roundtrip dTest (by simp [dTest])
    (by intro v hv; fin_cases hv <;> exact ⟨_, rfl⟩)
  have h2 : (Except.ok d2 : Except StackError LabeledDataset) = .ok dsRt := by
    rw [← hok]
    exact runRt_ok
  injection h2 with h
  rw [← h]
  exact ⟨hgd, hvars⟩

end HydroMT

